import Mathlib

/-!
Shallow embedding of the data-aggregation pipeline of `app/main.py`
(Cross-Country Solar Farm Analysis Dashboard).

The Python source is a Streamlit script.  Its logic, stripped of rendering:

* `load_all_cleaned_data()` iterates over a fixed country → filename dict,
  reads each CSV (tagging a `Country` column); on the first missing file it
  shows an error message naming the country and path and returns an empty
  DataFrame; otherwise it concatenates all per-country frames.
* `filtered_df = df_combined[df_combined['Country'].isin(selected_countries)]`
* `avg_ghi_ranking = filtered_df.groupby('Country')['GHI'].mean()
     .sort_values(ascending=False).reset_index()`
* cleaning impact: rendered only when `'Cleaning' in filtered_df.columns and
  filtered_df['Cleaning'].nunique() > 1`, as
  `filtered_df.groupby(['Country','Cleaning'])[['ModA','ModB']].mean()`.

Numeric cells are modelled as rationals, the filesystem as a function from
paths to optional row lists, and a DataFrame as a list of rows.
-/

namespace Solar

/-- A row read from one country's CSV, tagged with the `Country` column that
`load_all_cleaned_data` attaches (`df['Country'] = country`).  The payload
type `α` stands for the parsed CSV row; `load` never inspects it. -/
structure TaggedRow (α : Type) where
  country : String
  row : α
deriving DecidableEq

/-- The observable outcome of `load_all_cleaned_data()`: the DataFrame it
returns, plus the `(country, file_path)` arguments of the `st.error` call it
made, if any.  The Python function always returns a DataFrame; it never
raises. -/
structure LoadOutput (α : Type) where
  errorMsg : Option (String × String)
  data : List (TaggedRow α)
deriving DecidableEq

/-- `base_path = '../data/'` in the source. -/
def base_path : String := "../data/"

/-- `file_path = os.path.join(base_path, filename)`; since `base_path` ends
with a separator, `os.path.join` is plain concatenation here. -/
def file_path (filename : String) : String := base_path ++ filename

/-- The hard-coded `country_files` dict of the source, in insertion order
(Python dicts iterate in insertion order). -/
def country_files : List (String × String) :=
  [("Benin", "benin_clean.csv"),
   ("Sierra Leone", "sierra_leone_clean.csv"),
   ("Togo", "togo_clean.csv")]

/-- The `for country, filename in country_files.items()` loop of
`load_all_cleaned_data`, with `acc` playing the role of `all_dfs` already
concatenated.  `fs path = some rows` models `os.path.exists(path)` being true
and `pd.read_csv(path)` yielding `rows`; `fs path = none` models a missing
file, on which the source does `st.error(...)` and `return pd.DataFrame()`
immediately (fail-fast, empty result). -/
def load_loop (fs : String → Option (List α)) :
    List (String × String) → List (TaggedRow α) → LoadOutput α
  | [], acc => ⟨none, acc⟩
  | (c, f) :: rest, acc =>
    match fs (file_path f) with
    | some rows => load_loop fs rest (acc ++ rows.map (fun r => ⟨c, r⟩))
    | none => ⟨some (c, file_path f), []⟩

/-- `load_all_cleaned_data()`, generalized over the filesystem `fs` and over
the country → filename mapping (the source hard-codes `country_files`;
the spec's contract takes the mapping as a parameter). -/
def load_all_cleaned_data (fs : String → Option (List α))
    (files : List (String × String)) : LoadOutput α :=
  load_loop fs files []

/-- Modelled from the spec: `load(countryFileMap) → Dataset, fails with
MissingFileError(country, path) if any configured file does not exist`.
This is the spec's wording for `load`, written as an `Except`, for
comparison with the source's `load_all_cleaned_data` (which never fails:
it returns an empty DataFrame and shows an error message instead). -/
def load_spec (fs : String → Option (List α)) :
    List (String × String) → Except (String × String) (List (TaggedRow α))
  | [] => .ok []
  | (c, f) :: rest =>
    match fs (file_path f) with
    | none => .error (c, file_path f)
    | some rows =>
      match load_spec fs rest with
      | .error e => .error e
      | .ok d => .ok (rows.map (fun r => ⟨c, r⟩) ++ d)

/-! ### Helper lemmas about `load_loop` -/

theorem load_loop_all_exist {α : Type} (fs : String → Option (List α)) :
    ∀ (files : List (String × String)) (acc : List (TaggedRow α)),
      (∀ cf ∈ files, (fs (file_path cf.2)).isSome) →
      load_loop fs files acc =
        ⟨none, acc ++ files.flatMap
          (fun cf => ((fs (file_path cf.2)).getD []).map (fun r => ⟨cf.1, r⟩))⟩
  | [], acc, _ => by simp [load_loop]
  | (c, f) :: rest, acc, hex => by
    have hhd : (fs (file_path f)).isSome := hex (c, f) (by simp)
    obtain ⟨rows, hrows⟩ : ∃ rows, fs (file_path f) = some rows :=
      Option.isSome_iff_exists.mp hhd
    have htl : ∀ cf ∈ rest, (fs (file_path cf.2)).isSome := by
      intro cf hcf
      exact hex cf (List.mem_cons_of_mem _ hcf)
    simp only [load_loop, hrows]
    rw [load_loop_all_exist fs rest _ htl]
    simp [hrows, List.flatMap_cons, List.append_assoc]

theorem load_loop_missing_data {α : Type} (fs : String → Option (List α)) :
    ∀ (files : List (String × String)) (acc : List (TaggedRow α)),
      (∃ cf ∈ files, fs (file_path cf.2) = none) →
      (load_loop fs files acc).data = []
  | [], _, h => by simp at h
  | (c, f) :: rest, acc, h => by
    cases hhd : fs (file_path f) with
    | none => simp [load_loop, hhd]
    | some rows =>
      have hrest : ∃ cf ∈ rest, fs (file_path cf.2) = none := by
        obtain ⟨cf, hcf, hnone⟩ := h
        rcases List.mem_cons.mp hcf with heq | hmem
        · subst heq; rw [hnone] at hhd; cases hhd
        · exact ⟨cf, hmem, hnone⟩
      simp only [load_loop, hhd]
      exact load_loop_missing_data fs rest _ hrest

theorem load_loop_missing_first {α : Type} (fs : String → Option (List α))
    (c f : String) (post : List (String × String)) :
    ∀ (pre : List (String × String)) (acc : List (TaggedRow α)),
      (∀ cf ∈ pre, (fs (file_path cf.2)).isSome) →
      fs (file_path f) = none →
      load_loop fs (pre ++ (c, f) :: post) acc = ⟨some (c, file_path f), []⟩
  | [], acc, _, hmiss => by simp [load_loop, hmiss]
  | (c₀, f₀) :: pre, acc, hpre, hmiss => by
    have hhd : (fs (file_path f₀)).isSome := hpre (c₀, f₀) (by simp)
    obtain ⟨rows, hrows⟩ : ∃ rows, fs (file_path f₀) = some rows :=
      Option.isSome_iff_exists.mp hhd
    have htl : ∀ cf ∈ pre, (fs (file_path cf.2)).isSome := by
      intro cf hcf
      exact hpre cf (List.mem_cons_of_mem _ hcf)
    simp only [List.cons_append, load_loop, hrows]
    exact load_loop_missing_first fs c f post pre _ htl hmiss

/-! ### Concrete filesystems used as witnesses -/

/-- A filesystem on which every path is missing. -/
def fsNone : String → Option (List Unit) := fun _ => none

/-- A filesystem on which only the Sierra Leone file is missing. -/
def fsEx1 : String → Option (List Unit) := fun p =>
  if p = "../data/sierra_leone_clean.csv" then none else some []

/-- A filesystem on which all three configured files exist, with 1, 2 and 1
rows respectively. -/
def fs3 : String → Option (List Nat) := fun p =>
  if p = "../data/benin_clean.csv" then some [10]
  else if p = "../data/sierra_leone_clean.csv" then some [20, 30]
  else if p = "../data/togo_clean.csv" then some [40]
  else none

/-! ### Claim theorems about `load_all_cleaned_data` -/

/-- Claim C3: for every non-empty mapping in which every path exists, the
load returns a Dataset equal to the concatenation of each file's rows tagged
with its configured country; hence its size is the sum of the files' row
counts and every Record's Country equals the country configured for its
source file. -/
theorem load_all_exist_correct {α : Type} (fs : String → Option (List α))
    (files : List (String × String)) (_hne : files ≠ [])
    (hex : ∀ cf ∈ files, (fs (file_path cf.2)).isSome) :
    (load_all_cleaned_data fs files).errorMsg = none ∧
    (load_all_cleaned_data fs files).data
      = files.flatMap
          (fun cf => ((fs (file_path cf.2)).getD []).map (fun r => ⟨cf.1, r⟩)) ∧
    (load_all_cleaned_data fs files).data.length
      = (files.map (fun cf => ((fs (file_path cf.2)).getD []).length)).sum ∧
    ∀ t ∈ (load_all_cleaned_data fs files).data,
      ∃ cf ∈ files, t.country = cf.1 ∧ t.row ∈ (fs (file_path cf.2)).getD [] := by
  have h := load_loop_all_exist fs files [] hex
  unfold load_all_cleaned_data
  rw [h]
  refine ⟨rfl, by simp, ?_, ?_⟩
  · simp only [List.nil_append, List.length_flatMap, List.length_map,
      Function.comp_def]
  · intro t ht
    simp only [List.nil_append, List.mem_flatMap, List.mem_map] at ht
    obtain ⟨cf, hcf, r, hr, hrt⟩ := ht
    exact ⟨cf, hcf, by rw [← hrt], by rw [← hrt]; exact hr⟩

/-- Witness for `load_all_exist_correct` on a filesystem with three files of
1, 2 and 1 rows. -/
theorem load_all_exist_correct_witness :
    (load_all_cleaned_data fs3 country_files).errorMsg = none ∧
    (load_all_cleaned_data fs3 country_files).data.length = 4 := by
  have h := load_all_exist_correct fs3 country_files (by decide) (by decide)
  exact ⟨h.1, by rw [h.2.2.1]; decide⟩

/-- Claim C5: whenever some configured file is missing, the returned Dataset
is empty — no partial Dataset built from the files that do exist is
returned. -/
theorem load_missing_empty_dataset {α : Type} (fs : String → Option (List α))
    (files : List (String × String))
    (h : ∃ cf ∈ files, fs (file_path cf.2) = none) :
    (load_all_cleaned_data fs files).data = [] :=
  load_loop_missing_data fs files [] h

/-- Witness for `load_missing_empty_dataset`: only the Sierra Leone file is
missing, yet the Benin rows that were already read are discarded. -/
theorem load_missing_empty_dataset_witness :
    (load_all_cleaned_data fsEx1 country_files).data = [] :=
  load_missing_empty_dataset fsEx1 country_files
    ⟨("Sierra Leone", "sierra_leone_clean.csv"), by decide, by decide⟩

/-- Claim C1 (amended): when the configured mapping has a first missing file
(every earlier file exists), `load_all_cleaned_data` returns — normally, not
by raising — an output whose error message identifies exactly that country
and path and whose Dataset is empty. -/
theorem load_missing_reports_country_path {α : Type}
    (fs : String → Option (List α)) (c f : String)
    (pre post : List (String × String))
    (hpre : ∀ cf ∈ pre, (fs (file_path cf.2)).isSome)
    (hmiss : fs (file_path f) = none) :
    load_all_cleaned_data fs (pre ++ (c, f) :: post)
      = ⟨some (c, file_path f), []⟩ :=
  load_loop_missing_first fs c f post pre [] hpre hmiss

/-- Witness for `load_missing_reports_country_path`: the Sierra Leone file is
the first (and only) missing one. -/
theorem load_missing_reports_witness :
    load_all_cleaned_data fsEx1 country_files
      = ⟨some ("Sierra Leone", "../data/sierra_leone_clean.csv"), []⟩ :=
  load_missing_reports_country_path fsEx1 "Sierra Leone" "sierra_leone_clean.csv"
    [("Benin", "benin_clean.csv")] [("Togo", "togo_clean.csv")] (by decide)
    (by decide)

/-- Counterexample to claim C1 as stated: with every file missing, the
source's loader does return a Dataset normally — the empty one, together
with an error message — whereas the spec's `load` (`load_spec`) fails with
`MissingFileError("Benin", "../data/benin_clean.csv")`.  The code never
raises. -/
theorem load_missing_counterexample :
    load_all_cleaned_data fsNone country_files
      = ⟨some ("Benin", "../data/benin_clean.csv"), ([] : List (TaggedRow Unit))⟩ ∧
    load_spec fsNone country_files
      = Except.error ("Benin", "../data/benin_clean.csv") := by
  exact ⟨rfl, rfl⟩

/-! ### Timestamp parsing (`pd.read_csv(..., parse_dates=['Timestamp'])`) -/

/-- One cell of the Timestamp column after `read_csv`: either a parsed
date-time (abstracted as a number) or the original string left unaltered. -/
inductive TsCell where
  | parsed : Nat → TsCell
  | raw : String → TsCell
deriving DecidableEq

/-- Models the `parse_dates=['Timestamp']` handling of `pd.read_csv`,
parameterized by the date-time parser `pdt`: pandas attempts to convert the
whole column, and if any value cannot be parsed the column is returned
unaltered as object dtype.  No exception is raised and no row is dropped
either way. -/
def parse_timestamp_column (pdt : String → Option Nat) (col : List String) :
    List TsCell :=
  if col.all (fun s => (pdt s).isSome) then
    col.map (fun s => TsCell.parsed ((pdt s).getD 0))
  else
    col.map TsCell.raw

/-- A concrete date-time parser accepting exactly one string, used for
witnesses. -/
def pdtEx : String → Option Nat := fun s =>
  if s = "2023-01-01 00:00" then some 0 else none

/-! ### The combined DataFrame rows used by the dashboard section -/

/-- One row of `df_combined` / `filtered_df`: the `Country` tag, the
`Timestamp`, the seven selectable sensor metrics, and the module readings
plus the `Cleaning` flag used by the cleaning-impact chart.  Numeric cells
are rationals. -/
structure Row where
  Country : String
  Timestamp : String
  GHI : ℚ
  DNI : ℚ
  DHI : ℚ
  Tamb : ℚ
  RH : ℚ
  WS : ℚ
  BP : ℚ
  ModA : ℚ
  ModB : ℚ
  Cleaning : ℚ
deriving DecidableEq

/-- The metric options of the sidebar selectbox:
`['GHI', 'DNI', 'DHI', 'Tamb', 'RH', 'WS', 'BP']`. -/
inductive Metric where
  | GHI | DNI | DHI | Tamb | RH | WS | BP
deriving DecidableEq

/-- Column lookup `row[metric]`. -/
def Metric.value : Metric → Row → ℚ
  | .GHI => Row.GHI
  | .DNI => Row.DNI
  | .DHI => Row.DHI
  | .Tamb => Row.Tamb
  | .RH => Row.RH
  | .WS => Row.WS
  | .BP => Row.BP

/-- Helper for `uniqueKeepFirst`: drop the elements already seen. -/
def uniqueAux [DecidableEq α] : List α → List α → List α
  | [], _ => []
  | x :: xs, seen =>
    if x ∈ seen then uniqueAux xs seen else x :: uniqueAux xs (x :: seen)

/-- `Series.unique().tolist()`: distinct values in order of first
occurrence. -/
def uniqueKeepFirst [DecidableEq α] (l : List α) : List α := uniqueAux l []

/-- `all_countries = df_combined['Country'].unique().tolist()`. -/
def all_countries (df : List Row) : List String :=
  uniqueKeepFirst (df.map Row.Country)

/-- `filtered_df = df_combined[df_combined['Country'].isin(selected_countries)]`. -/
def filtered_df (df : List Row) (selected : List String) : List Row :=
  df.filter (fun r => decide (r.Country ∈ selected))

/-! ### Insertion sort (used to model pandas key sorting and `sort_values`) -/

/-- Insert `x` before the first element `y` with `lt x y`. -/
def insertBy (lt : α → α → Bool) (x : α) : List α → List α
  | [] => [x]
  | y :: ys => if lt x y then x :: y :: ys else y :: insertBy lt x ys

/-- Insertion sort by the strict comparison `lt` (stable: ties keep their
relative order). -/
def sortBy (lt : α → α → Bool) : List α → List α
  | [] => []
  | x :: xs => insertBy lt x (sortBy lt xs)

/-- Lexicographic comparison of character sequences by code point. -/
def chars_lt : List Char → List Char → Bool
  | [], [] => false
  | [], _ :: _ => true
  | _ :: _, [] => false
  | a :: as, b :: bs =>
    if a.toNat < b.toNat then true
    else if b.toNat < a.toNat then false
    else chars_lt as bs

/-- Ascending comparison on strings (lexicographic by code point, as in
Python), for `groupby`'s sorted group keys. -/
def str_lt (a b : String) : Bool := chars_lt a.toList b.toList

/-- Descending-by-mean comparison on `(country, mean)` pairs, for
`sort_values(ascending=False)`. -/
def mean_desc_lt (a b : String × ℚ) : Bool := decide (b.2 < a.2)

/-- Lexicographic ascending comparison on `(Country, Cleaning)` keys, for
`groupby(['Country', 'Cleaning'])`'s sorted group keys. -/
def country_cleaning_lt (a b : String × ℚ) : Bool :=
  str_lt a.1 b.1 || (decide (a.1 = b.1) && decide (a.2 < b.2))

/-- Arithmetic mean of a list of rationals (`Series.mean()`; only applied to
non-empty groups). -/
def mean (l : List ℚ) : ℚ := l.sum / l.length

/-- The sorted distinct group keys of `groupby('Country')`. -/
def group_countries (df : List Row) : List String :=
  sortBy str_lt (uniqueKeepFirst (df.map Row.Country))

/-- `avg_ghi_ranking = filtered_df.groupby('Country')['GHI'].mean()
.sort_values(ascending=False).reset_index()`: note the source always takes
the mean of the fixed `'GHI'` column, whatever metric is selected in the
sidebar.  (The subsequent column renaming is presentational and omitted.) -/
def avg_ghi_ranking (df : List Row) : List (String × ℚ) :=
  sortBy mean_desc_lt
    ((group_countries df).map (fun c =>
      (c, mean ((df.filter (fun r => decide (r.Country = c))).map Row.GHI))))

/-- Modelled from the spec: `rankByMetricMean(view, metric)` — groups the
Filtered View by Country, computes the arithmetic mean of the supplied
`metric` per group, and orders descending by mean.  Written from the spec's
words for comparison with the source's `avg_ghi_ranking`, which uses the
fixed `GHI` column instead of the supplied metric. -/
def rankByMetricMean (df : List Row) (m : Metric) : List (String × ℚ) :=
  sortBy mean_desc_lt
    ((group_countries df).map (fun c =>
      (c, mean ((df.filter (fun r => decide (r.Country = c))).map m.value))))

/-! ### Cleaning impact -/

/-- A Filtered View as seen by the cleaning-impact branch: whether the
DataFrame has a `'Cleaning'` column at all (`'Cleaning' in
filtered_df.columns`), and its rows. -/
structure View where
  hasCleaning : Bool
  rows : List Row
deriving DecidableEq

/-- `filtered_df['Cleaning'].nunique()`: the number of distinct values of
the Cleaning column. -/
def nunique_cleaning (rows : List Row) : Nat :=
  (uniqueKeepFirst (rows.map Row.Cleaning)).length

/-- The sorted distinct group keys of `groupby(['Country', 'Cleaning'])`. -/
def cleaning_groups (rows : List Row) : List (String × ℚ) :=
  sortBy country_cleaning_lt
    (uniqueKeepFirst (rows.map (fun r => (r.Country, r.Cleaning))))

/-- `cleaning_impact_df = filtered_df.groupby(['Country', 'Cleaning'])
[['ModA', 'ModB']].mean().reset_index()`: one entry
`(country, cleaning, mean ModA, mean ModB)` per group.  (The added display
label column `'Cleaning Status'` is presentational and omitted.) -/
def cleaning_impact_df (rows : List Row) : List (String × ℚ × ℚ × ℚ) :=
  (cleaning_groups rows).map (fun p =>
    (p.1, p.2,
     mean ((rows.filter
       (fun r => decide (r.Country = p.1 ∧ r.Cleaning = p.2))).map Row.ModA),
     mean ((rows.filter
       (fun r => decide (r.Country = p.1 ∧ r.Cleaning = p.2))).map Row.ModB)))

/-- The guarded cleaning-impact computation of the dashboard:
`if 'Cleaning' in filtered_df.columns and filtered_df['Cleaning'].nunique() > 1`
then the grouped means are computed (and rendered), else the whole section
is skipped — no error, no result. -/
def cleaning_impact (v : View) : Option (List (String × ℚ × ℚ × ℚ)) :=
  if v.hasCleaning && decide (1 < nunique_cleaning v.rows) then
    some (cleaning_impact_df v.rows)
  else
    none

/-! ### Helper lemmas about `uniqueKeepFirst`, `insertBy` and `sortBy` -/

theorem mem_uniqueAux [DecidableEq α] (a : α) :
    ∀ (l seen : List α), a ∈ uniqueAux l seen ↔ a ∈ l ∧ a ∉ seen
  | [], seen => by simp [uniqueAux]
  | x :: xs, seen => by
    rw [uniqueAux]
    by_cases hx : x ∈ seen
    · rw [if_pos hx, mem_uniqueAux a xs seen]
      constructor
      · rintro ⟨h1, h2⟩
        exact ⟨List.mem_cons_of_mem _ h1, h2⟩
      · rintro ⟨h1, h2⟩
        rcases List.mem_cons.mp h1 with rfl | h1
        · exact absurd hx h2
        · exact ⟨h1, h2⟩
    · rw [if_neg hx]
      constructor
      · intro h
        rcases List.mem_cons.mp h with rfl | h
        · exact ⟨List.mem_cons_self _ _, hx⟩
        · rcases (mem_uniqueAux a xs (x :: seen)).mp h with ⟨h1, h2⟩
          exact ⟨List.mem_cons_of_mem _ h1,
            fun hs => h2 (List.mem_cons_of_mem _ hs)⟩
      · rintro ⟨h1, h2⟩
        rcases List.mem_cons.mp h1 with rfl | h1
        · exact List.mem_cons_self _ _
        · by_cases hax : a = x
          · exact hax ▸ List.mem_cons_self _ _
          · refine List.mem_cons_of_mem _ ?_
            refine (mem_uniqueAux a xs (x :: seen)).mpr ⟨h1, ?_⟩
            intro hs
            rcases List.mem_cons.mp hs with h | h
            · exact hax h
            · exact h2 h

theorem nodup_uniqueAux [DecidableEq α] :
    ∀ (l seen : List α), (uniqueAux l seen).Nodup
  | [], seen => by simp [uniqueAux]
  | x :: xs, seen => by
    rw [uniqueAux]
    by_cases hx : x ∈ seen
    · rw [if_pos hx]
      exact nodup_uniqueAux xs seen
    · rw [if_neg hx]
      refine List.nodup_cons.mpr ⟨?_, nodup_uniqueAux xs (x :: seen)⟩
      intro hmem
      exact ((mem_uniqueAux x xs (x :: seen)).mp hmem).2 (List.mem_cons_self _ _)

theorem mem_uniqueKeepFirst [DecidableEq α] (a : α) (l : List α) :
    a ∈ uniqueKeepFirst l ↔ a ∈ l := by
  rw [uniqueKeepFirst, mem_uniqueAux]
  simp

theorem nodup_uniqueKeepFirst [DecidableEq α] (l : List α) :
    (uniqueKeepFirst l).Nodup :=
  nodup_uniqueAux l []

theorem insertBy_perm (lt : α → α → Bool) (x : α) :
    ∀ l : List α, (insertBy lt x l).Perm (x :: l)
  | [] => List.Perm.refl _
  | y :: ys => by
    rw [insertBy]
    by_cases hlt : lt x y = true
    · simp only [hlt, if_true]
      exact List.Perm.refl _
    · simp only [hlt, if_false]
      exact ((insertBy_perm lt x ys).cons y).trans (List.Perm.swap x y ys)

theorem sortBy_perm (lt : α → α → Bool) :
    ∀ l : List α, (sortBy lt l).Perm l
  | [] => List.Perm.refl _
  | x :: xs => by
    rw [sortBy]
    exact (insertBy_perm lt x (sortBy lt xs)).trans ((sortBy_perm lt xs).cons x)

theorem mem_sortBy (lt : α → α → Bool) (a : α) (l : List α) :
    a ∈ sortBy lt l ↔ a ∈ l :=
  (sortBy_perm lt l).mem_iff

theorem mem_insertBy (lt : α → α → Bool) (a x : α) (l : List α) :
    a ∈ insertBy lt x l ↔ a = x ∨ a ∈ l := by
  rw [(insertBy_perm lt x l).mem_iff]
  exact List.mem_cons

theorem pairwise_insertBy_meanDesc (x : String × ℚ) :
    ∀ l : List (String × ℚ),
      List.Pairwise (fun a b : String × ℚ => b.2 ≤ a.2) l →
      List.Pairwise (fun a b : String × ℚ => b.2 ≤ a.2) (insertBy mean_desc_lt x l)
  | [], _ => List.pairwise_singleton _ _
  | y :: ys, h => by
    rcases List.pairwise_cons.mp h with ⟨hy, hys⟩
    rw [insertBy]
    by_cases hlt : mean_desc_lt x y = true
    · have hyx : y.2 < x.2 := by simpa [mean_desc_lt] using hlt
      simp only [hlt, if_true]
      refine List.pairwise_cons.mpr ⟨?_, h⟩
      intro z hz
      rcases List.mem_cons.mp hz with rfl | hz
      · exact le_of_lt hyx
      · exact le_trans (hy z hz) (le_of_lt hyx)
    · have hxy : x.2 ≤ y.2 := le_of_not_lt (by simpa [mean_desc_lt] using hlt)
      simp only [hlt, if_false]
      refine List.pairwise_cons.mpr ⟨?_, pairwise_insertBy_meanDesc x ys hys⟩
      intro z hz
      rcases (mem_insertBy mean_desc_lt z x ys).mp hz with rfl | hz
      · exact hxy
      · exact hy z hz

theorem pairwise_sortBy_meanDesc :
    ∀ l : List (String × ℚ),
      List.Pairwise (fun a b : String × ℚ => b.2 ≤ a.2) (sortBy mean_desc_lt l)
  | [] => List.Pairwise.nil
  | x :: xs => by
    rw [sortBy]
    exact pairwise_insertBy_meanDesc x _ (pairwise_sortBy_meanDesc xs)

theorem nodup_group_countries (df : List Row) : (group_countries df).Nodup :=
  ((sortBy_perm str_lt _).nodup_iff).mpr (nodup_uniqueKeepFirst _)

theorem mem_group_countries (df : List Row) (c : String) :
    c ∈ group_countries df ↔ c ∈ df.map Row.Country := by
  rw [group_countries, mem_sortBy, mem_uniqueKeepFirst]

/-! ### Example data -/

/-- Two rows where the GHI ordering (Benin 500 > Togo 300) is the reverse of
the DNI ordering (Togo 900 > Benin 100). -/
def exRows2 : List Row :=
  [⟨"Benin", "2021-08-09 00:00", 500, 100, 0, 0, 0, 0, 0, 0, 0, 0⟩,
   ⟨"Togo", "2021-08-09 00:00", 300, 900, 0, 0, 0, 0, 0, 0, 0, 0⟩]

/-- A view with a Cleaning column and two distinct Cleaning values. -/
def exView : View :=
  ⟨true,
   [⟨"Benin", "2021-08-09 00:00", 0, 0, 0, 0, 0, 0, 0, 10, 20, 0⟩,
    ⟨"Benin", "2021-08-09 01:00", 0, 0, 0, 0, 0, 0, 0, 30, 40, 1⟩]⟩

/-- A view whose DataFrame has no Cleaning column. -/
def exViewNoCleaning : View := ⟨false, exRows2⟩

theorem eval_avg_ghi_exRows2 :
    avg_ghi_ranking exRows2 = [("Benin", 500), ("Togo", 300)] := by
  have h1 : group_countries exRows2 = ["Benin", "Togo"] := by decide
  have hbg : (exRows2.filter (fun r => decide (r.Country = "Benin"))).map Row.GHI
      = [500] := by decide
  have htg : (exRows2.filter (fun r => decide (r.Country = "Togo"))).map Row.GHI
      = [300] := by decide
  unfold avg_ghi_ranking
  rw [h1]
  simp only [List.map_cons, List.map_nil]
  rw [hbg, htg]
  norm_num [sortBy, insertBy, mean_desc_lt, mean]

theorem eval_rank_dni_exRows2 :
    rankByMetricMean exRows2 Metric.DNI = [("Togo", 900), ("Benin", 100)] := by
  have h1 : group_countries exRows2 = ["Benin", "Togo"] := by decide
  have hbd : (exRows2.filter (fun r => decide (r.Country = "Benin"))).map
      Metric.DNI.value = [100] := by decide
  have htd : (exRows2.filter (fun r => decide (r.Country = "Togo"))).map
      Metric.DNI.value = [900] := by decide
  unfold rankByMetricMean
  rw [h1]
  simp only [List.map_cons, List.map_nil]
  rw [hbd, htd]
  norm_num [sortBy, insertBy, mean_desc_lt, mean]

theorem eval_cleaning_exView :
    cleaning_impact_df exView.rows = [("Benin", 0, 10, 20), ("Benin", 1, 30, 40)] := by
  have h1 : cleaning_groups exView.rows = [("Benin", 0), ("Benin", 1)] := by decide
  have hA0 : (exView.rows.filter
      (fun r => decide (r.Country = "Benin" ∧ r.Cleaning = 0))).map Row.ModA
      = [10] := by decide
  have hB0 : (exView.rows.filter
      (fun r => decide (r.Country = "Benin" ∧ r.Cleaning = 0))).map Row.ModB
      = [20] := by decide
  have hA1 : (exView.rows.filter
      (fun r => decide (r.Country = "Benin" ∧ r.Cleaning = 1))).map Row.ModA
      = [30] := by decide
  have hB1 : (exView.rows.filter
      (fun r => decide (r.Country = "Benin" ∧ r.Cleaning = 1))).map Row.ModB
      = [40] := by decide
  unfold cleaning_impact_df
  rw [h1]
  simp only [List.map_cons, List.map_nil]
  rw [hA0, hB0, hA1, hB1]
  norm_num [mean]

/-! ### Claim theorems about parsing, filtering, ranking and cleaning -/

/-- Counterexample to claim C4 as stated: a file whose single row has the
unparseable Timestamp "notadate" is read without any error — the row is
silently kept, with the Timestamp column left un-parsed (returned unaltered
as its raw string), exactly what the claim rules out. -/
theorem parse_timestamp_counterexample :
    parse_timestamp_column pdtEx ["notadate"] = [TsCell.raw "notadate"] ∧
    (parse_timestamp_column pdtEx ["notadate"]).length = 1 := ⟨rfl, rfl⟩

/-- Claim C4 (amended): `read_csv` with `parse_dates` never drops a row and
never raises on unparseable timestamps: the row count is always preserved,
and as soon as one Timestamp value fails to parse the whole column is kept
in raw, un-parsed form. -/
theorem parse_timestamp_keeps_unparseable_rows (pdt : String → Option Nat)
    (col : List String) :
    (parse_timestamp_column pdt col).length = col.length ∧
    ((∃ s ∈ col, pdt s = none) →
      parse_timestamp_column pdt col = col.map TsCell.raw) := by
  constructor
  · unfold parse_timestamp_column
    by_cases h : col.all (fun s => (pdt s).isSome) = true
    · simp [h]
    · simp [h]
  · rintro ⟨s, hs, hnone⟩
    unfold parse_timestamp_column
    have hall : col.all (fun s => (pdt s).isSome) = false := by
      apply List.all_eq_false.mpr
      exact ⟨s, hs, by simp [hnone]⟩
    simp [hall]

/-- Witness for `parse_timestamp_keeps_unparseable_rows` at a one-row file
with an unparseable timestamp. -/
theorem parse_timestamp_keeps_unparseable_rows_witness :
    parse_timestamp_column pdtEx ["notadate", "2023-01-01 00:00"]
      = [TsCell.raw "notadate", TsCell.raw "2023-01-01 00:00"] := by
  have h := (parse_timestamp_keeps_unparseable_rows pdtEx
    ["notadate", "2023-01-01 00:00"]).2 ⟨"notadate", by decide, by decide⟩
  exact h

/-- Claim C7: filtering by an empty country selection yields the empty view
(a value, not an error), for every dataset. -/
theorem filtered_df_empty_selection (df : List Row) :
    filtered_df df [] = [] := by
  unfold filtered_df
  induction df with
  | nil => rfl
  | cons r rs ih => simp [ih]

/-- Claim C9: filtering by the set of all countries occurring in the Dataset
keeps every row, so the view has the size of the full Dataset. -/
theorem filtered_df_all_countries (df : List Row) :
    (filtered_df df (all_countries df)).length = df.length := by
  have heq : filtered_df df (all_countries df) = df := by
    unfold filtered_df
    apply List.filter_eq_self.mpr
    intro r hr
    simp only [decide_eq_true_eq]
    exact (mem_uniqueKeepFirst _ _).mpr (List.mem_map_of_mem Row.Country hr)
  rw [heq]

/-- Claim C8: the ranking table is sorted descending by mean — every pair of
entries (in particular every adjacent pair) satisfies mean(a) ≥ mean(b) —
both for the source's `avg_ghi_ranking` and for the spec's
`rankByMetricMean` at every metric. -/
theorem ranking_sorted_descending :
    (∀ df : List Row,
      List.Pairwise (fun a b : String × ℚ => b.2 ≤ a.2) (avg_ghi_ranking df)) ∧
    (∀ (df : List Row) (m : Metric),
      List.Pairwise (fun a b : String × ℚ => b.2 ≤ a.2) (rankByMetricMean df m)) :=
  ⟨fun _ => pairwise_sortBy_meanDesc _, fun _ _ => pairwise_sortBy_meanDesc _⟩

/-- Counterexample to claim C2 as stated: the source's ranking always
averages the fixed `'GHI'` column.  On `exRows2` with the metric `DNI`
selected, the claimed behaviour (`rankByMetricMean`, modelled from the spec)
gives Togo first with mean 900, but the code's `avg_ghi_ranking` gives
Benin first with the GHI mean 500. -/
theorem ranking_uses_fixed_ghi_counterexample :
    avg_ghi_ranking exRows2 = [("Benin", 500), ("Togo", 300)] ∧
    rankByMetricMean exRows2 Metric.DNI = [("Togo", 900), ("Benin", 100)] ∧
    avg_ghi_ranking exRows2 ≠ rankByMetricMean exRows2 Metric.DNI := by
  refine ⟨eval_avg_ghi_exRows2, eval_rank_dni_exRows2, ?_⟩
  rw [eval_avg_ghi_exRows2, eval_rank_dni_exRows2]
  decide

/-- Claim C2 (amended): the ranking groups the Filtered View by Country and
computes the arithmetic mean of the fixed `GHI` column per group — not of
the selected metric — returning one (country, mean) pair per country
present, ordered descending by mean. -/
theorem avg_ghi_ranking_groups_ghi_desc (df : List Row) :
    ((avg_ghi_ranking df).map Prod.fst).Nodup ∧
    (∀ c : String, (∃ m, (c, m) ∈ avg_ghi_ranking df) ↔ c ∈ df.map Row.Country) ∧
    (∀ p ∈ avg_ghi_ranking df,
      p.2 = mean ((df.filter (fun r => decide (r.Country = p.1))).map Row.GHI)) ∧
    List.Pairwise (fun a b : String × ℚ => b.2 ≤ a.2) (avg_ghi_ranking df) := by
  have hperm : (avg_ghi_ranking df).Perm
      ((group_countries df).map (fun c =>
        (c, mean ((df.filter (fun r => decide (r.Country = c))).map Row.GHI)))) :=
    sortBy_perm _ _
  refine ⟨?_, ?_, ?_, pairwise_sortBy_meanDesc _⟩
  · apply ((hperm.map Prod.fst).nodup_iff).mpr
    rw [List.map_map]
    simpa [Function.comp_def] using nodup_group_countries df
  · intro c
    constructor
    · rintro ⟨m, hm⟩
      obtain ⟨k, hk, hkeq⟩ := List.mem_map.mp (hperm.mem_iff.mp hm)
      have hkc : k = c := congrArg Prod.fst hkeq
      subst hkc
      exact (mem_group_countries df k).mp hk
    · intro hc
      refine ⟨mean ((df.filter (fun r => decide (r.Country = c))).map Row.GHI), ?_⟩
      exact hperm.mem_iff.mpr
        (List.mem_map_of_mem _ ((mem_group_countries df c).mpr hc))
  · intro p hp
    obtain ⟨k, _, hkeq⟩ := List.mem_map.mp (hperm.mem_iff.mp hp)
    subst hkeq
    rfl

/-- Witness for `avg_ghi_ranking_groups_ghi_desc`: on `exRows2`, the pair
("Benin", 500) is in the ranking and 500 is indeed the GHI mean of the
Benin group. -/
theorem avg_ghi_ranking_groups_ghi_desc_witness :
    ("Benin", (500 : ℚ)) ∈ avg_ghi_ranking exRows2 ∧
    (500 : ℚ) = mean ((exRows2.filter
      (fun r => decide (r.Country = "Benin"))).map Row.GHI) := by
  have hmem : ("Benin", (500 : ℚ)) ∈ avg_ghi_ranking exRows2 := by
    rw [eval_avg_ghi_exRows2]
    exact List.mem_cons_self _ _
  exact ⟨hmem,
    (avg_ghi_ranking_groups_ghi_desc exRows2).2.2.1 ("Benin", (500 : ℚ)) hmem⟩

/-- Claim C6: with fewer than two distinct Cleaning values the
cleaning-impact computation yields `none` (a skipped section — no error, no
degenerate result); with the column present and more than one distinct
value, it yields the per-(Country, Cleaning) means of ModA and ModB, one
entry per (Country, Cleaning) pair occurring in the view. -/
theorem cleaning_impact_cases (v : View) :
    (nunique_cleaning v.rows < 2 → cleaning_impact v = none) ∧
    (v.hasCleaning = true → 1 < nunique_cleaning v.rows →
      cleaning_impact v = some (cleaning_impact_df v.rows) ∧
      (∀ e ∈ cleaning_impact_df v.rows,
        (e.1, e.2.1) ∈ v.rows.map (fun r => (r.Country, r.Cleaning)) ∧
        e.2.2.1 = mean ((v.rows.filter
          (fun r => decide (r.Country = e.1 ∧ r.Cleaning = e.2.1))).map Row.ModA) ∧
        e.2.2.2 = mean ((v.rows.filter
          (fun r => decide (r.Country = e.1 ∧ r.Cleaning = e.2.1))).map Row.ModB)) ∧
      (∀ q ∈ v.rows.map (fun r => (r.Country, r.Cleaning)),
        ∃ a b, (q.1, q.2, a, b) ∈ cleaning_impact_df v.rows)) := by
  constructor
  · intro h
    have hfalse : ¬ ((v.hasCleaning && decide (1 < nunique_cleaning v.rows)) = true) := by
      intro hcond
      have h2 := of_decide_eq_true (Bool.and_elim_right hcond)
      omega
    unfold cleaning_impact
    exact if_neg hfalse
  · intro hc hn
    refine ⟨?_, ?_, ?_⟩
    · unfold cleaning_impact
      simp [hc, hn]
    · intro e he
      obtain ⟨p, hp, hpe⟩ := List.mem_map.mp he
      have hpmem : p ∈ v.rows.map (fun r => (r.Country, r.Cleaning)) := by
        rw [← mem_uniqueKeepFirst p (v.rows.map (fun r => (r.Country, r.Cleaning)))]
        exact (mem_sortBy _ _ _).mp hp
      subst hpe
      exact ⟨hpmem, rfl, rfl⟩
    · intro q hq
      refine ⟨_, _, List.mem_map_of_mem _ ?_⟩
      rw [cleaning_groups, mem_sortBy, mem_uniqueKeepFirst]
      exact hq

/-- Witness for `cleaning_impact_cases`: on `exView` (two Benin rows, one
with Cleaning 0 and one with Cleaning 1) the computation yields the two
per-group (ModA, ModB) means. -/
theorem cleaning_impact_cases_witness :
    cleaning_impact exView = some [("Benin", 0, 10, 20), ("Benin", 1, 30, 40)] := by
  have h := ((cleaning_impact_cases exView).2 rfl (by decide)).1
  rw [h, eval_cleaning_exView]

/-- Claim C10: when the Filtered View's DataFrame has no Cleaning column at
all, the cleaning-impact section is skipped as not applicable — `none`, the
same non-error outcome as having fewer than two distinct Cleaning values. -/
theorem cleaning_impact_no_column_skipped (v : View)
    (h : v.hasCleaning = false) : cleaning_impact v = none := by
  unfold cleaning_impact
  rw [h]
  simp

/-- Witness for `cleaning_impact_no_column_skipped`. -/
theorem cleaning_impact_no_column_skipped_witness :
    cleaning_impact exViewNoCleaning = none :=
  cleaning_impact_no_column_skipped exViewNoCleaning rfl

end Solar
